import Mathlib

/-!
Shallow embedding of `camera.py` (charlieh0tel/pinhole): thin-lens camera
calculations over typed physical quantities.

A `quantities` value is modelled as a magnitude together with the scale
factor of its unit to the SI base unit (meter for lengths, radian for
angles); arithmetic on quantities mirrors the `quantities` library:
multiplication and division combine magnitudes and unit factors,
addition and subtraction rescale the right operand to the left operand's
unit, comparisons compare SI values, `rescale` converts to a target unit.
Python floats are idealised as real numbers; the IEEE infinity produced
for the far depth-of-field limit is modelled by a dedicated constructor
tagged with its unit.  Exceptions are modelled with `Except`: the
`assert` statement raises `AssertionError`, and the `raise Error(...)`
lines raise `NameError` because the name `Error` is bound nowhere in
`camera.py` (no definition, no import).
-/

namespace Pinhole

open Real

/-- A physical quantity: a magnitude and the scale factor of its unit to
the SI base unit. -/
structure Qty where
  mag : ℝ
  u : ℝ

/-- The value of a quantity in SI base units. -/
noncomputable def Qty.si (q : Qty) : ℝ := q.mag * q.u

/-- Quantity multiplication: magnitudes multiply, units combine. -/
noncomputable def Qty.mul (a b : Qty) : Qty := ⟨a.mag * b.mag, a.u * b.u⟩

/-- Quantity division: magnitudes divide, units combine. -/
noncomputable def Qty.div (a b : Qty) : Qty := ⟨a.mag / b.mag, a.u / b.u⟩

/-- Scalar times quantity (unit unchanged). -/
noncomputable def Qty.smul (r : ℝ) (a : Qty) : Qty := ⟨r * a.mag, a.u⟩

/-- Quantity addition: the right operand is rescaled to the left
operand's unit. -/
noncomputable def Qty.add (a b : Qty) : Qty := ⟨a.mag + b.mag * b.u / a.u, a.u⟩

/-- Quantity subtraction: the right operand is rescaled to the left
operand's unit. -/
noncomputable def Qty.sub (a b : Qty) : Qty := ⟨a.mag - b.mag * b.u / a.u, a.u⟩

/-- Convert a quantity to the unit with scale factor u2. -/
noncomputable def Qty.rescale (a : Qty) (u2 : ℝ) : Qty := ⟨a.mag * a.u / u2, u2⟩

/-- `numpy.hypot` on two quantities of the same dimension: the second is
rescaled to the first's unit and the Euclidean norm of the magnitudes is
taken. -/
noncomputable def Qty.hypot (a b : Qty) : Qty :=
  ⟨Real.sqrt (a.mag ^ 2 + ((b.rescale a.u).mag) ^ 2), a.u⟩

/-- SI scale factor of the meter. -/
def meter : ℝ := 1

/-- SI scale factor of the millimeter. -/
noncomputable def mm : ℝ := 1 / 1000

/-- SI scale factor of the micron. -/
noncomputable def micron : ℝ := 1 / 1000000

/-- SI scale factor of the radian. -/
def radian : ℝ := 1

/-- `numpy.arctan2`, the two-argument arctangent. -/
noncomputable def atan2 (y x : ℝ) : ℝ :=
  if 0 < x then Real.arctan (y / x)
  else if x < 0 then
    (if 0 ≤ y then Real.arctan (y / x) + π else Real.arctan (y / x) - π)
  else
    (if 0 < y then π / 2 else if y < 0 then -(π / 2) else 0)

/-- The Python exceptions `camera.py` can raise: `AssertionError` from the
`assert` in `GetDepthOfField`, and `NameError` from evaluating the unbound
name `Error` in the unknown-cfa / unknown-projection branches. -/
inductive PyErr where
  | assertionError
  | nameError (nm : String)
  deriving DecidableEq

/-- `Sensor` from camera.py. -/
structure Sensor where
  name : String
  pixel_pitch : Qty
  width_pixels : ℕ
  height_pixels : ℕ
  cfa : String

/-- `Sensor.sensor_width`: `pixel_pitch * width_pixels`. -/
noncomputable def Sensor.sensor_width (s : Sensor) : Qty :=
  Qty.smul (s.width_pixels : ℝ) s.pixel_pitch

/-- `Sensor.sensor_height`: `pixel_pitch * height_pixels`. -/
noncomputable def Sensor.sensor_height (s : Sensor) : Qty :=
  Qty.smul (s.height_pixels : ℝ) s.pixel_pitch

/-- `Sensor.sensor_diagonal`: `numpy.hypot(sensor_height, sensor_width)`. -/
noncomputable def Sensor.sensor_diagonal (s : Sensor) : Qty :=
  Qty.hypot s.sensor_height s.sensor_width

/-- `Sensor.circle_of_confusion_diameter`: `2.25 * pixel_pitch` for the
bayer cfa; any other cfa reaches `raise Error(...)` where `Error` is an
unbound name, so Python raises `NameError`. -/
noncomputable def Sensor.circle_of_confusion_diameter (s : Sensor) :
    Except PyErr Qty :=
  if s.cfa = "bayer" then .ok (Qty.smul 2.25 s.pixel_pitch)
  else .error (.nameError "Error")

/-- `Lens` from camera.py. -/
structure Lens where
  name : String
  focal_length : Qty
  aperture_diameter : Qty
  projection : String

/-- `Lens.f_number = focal_length / aperture_diameter`. -/
noncomputable def Lens.f_number (l : Lens) : Qty :=
  l.focal_length.div l.aperture_diameter

/-- `Lens._GetAngleOfView(focal_plane_length)`: rectilinear branch is
`2 * arctan2(focal_plane_length, 2 * focal_length.rescale(units)) * radian`;
equidistant branch is `(focal_plane_length / focal_length).simplified *
radian`; any other projection reaches `raise Error(...)` with `Error`
unbound, i.e. `NameError`. -/
noncomputable def Lens.GetAngleOfView (l : Lens) (focal_plane_length : Qty) :
    Except PyErr Qty :=
  if l.projection = "rectilinear" then
    .ok ⟨2 * atan2 focal_plane_length.mag
          (2 * (l.focal_length.rescale focal_plane_length.u).mag), radian⟩
  else if l.projection = "equidistant" then
    .ok ⟨(focal_plane_length.div l.focal_length).si, radian⟩
  else .error (.nameError "Error")

/-- `Camera` from camera.py. -/
structure Camera where
  name : String
  sensor : Sensor
  lens : Lens

/-- The far depth-of-field limit: either a finite quantity, or the IEEE
infinity `INF * pq.m` tagged with a unit. -/
inductive FarLimit where
  | fin (q : Qty)
  | inf (u : ℝ)

/-- `fl` exceeds the SI value `x`: a finite limit compares by SI value, the
infinite limit exceeds everything. -/
noncomputable def FarLimit.gtSi (fl : FarLimit) (x : ℝ) : Prop :=
  match fl with
  | .fin q => x < q.si
  | .inf _ => True

/-- `Camera.GetHyperfocalDistance`:
`(focal_length² / (f_number * coc) + focal_length).rescale(meter)`. -/
noncomputable def Camera.GetHyperfocalDistance (cam : Camera) :
    Except PyErr Qty :=
  let focal_length := cam.lens.focal_length
  let flsq := focal_length.mul focal_length
  match cam.sensor.circle_of_confusion_diameter with
  | .error e => .error e
  | .ok coc =>
      .ok (((flsq.div (cam.lens.f_number.mul coc)).add focal_length).rescale
        meter)

/-- `Camera.GetDepthOfField(focus_distance)`: asserts
`focus_distance > focal_length`, then
`near = s·f² / (f² + N·c·s)` and `far = s·f² / (f² - N·c·s)` when
`f² - N·c·s > 0`, else `far = INF * pq.m`. -/
noncomputable def Camera.GetDepthOfField (cam : Camera) (focus_distance : Qty) :
    Except PyErr (Qty × FarLimit) :=
  let focal_length := cam.lens.focal_length
  let flsq := focal_length.mul focal_length
  if cam.lens.focal_length.si < focus_distance.si then
    match cam.sensor.circle_of_confusion_diameter with
    | .error e => .error e
    | .ok coc =>
        let near := (focus_distance.mul flsq).div
          (flsq.add ((cam.lens.f_number.mul coc).mul focus_distance))
        let sd := flsq.sub ((cam.lens.f_number.mul coc).mul focus_distance)
        if 0 < sd.mag then
          .ok (near, .fin ((focus_distance.mul flsq).div sd))
        else
          .ok (near, .inf meter)
  else .error .assertionError

/-- `Camera.Get35mmEquivalentFocalLength`:
`crop_factor = 43.27 mm / sensor_diagonal;
(crop_factor * focal_length).rescale(mm)`. -/
noncomputable def Camera.Get35mmEquivalentFocalLength (cam : Camera) : Qty :=
  let crop_factor := (Qty.mk 43.27 mm).div cam.sensor.sensor_diagonal
  (crop_factor.mul cam.lens.focal_length).rescale mm

/-! ### Spec-side formula definitions (stated from the spec's words, at SI
values), validity predicate, source-local subterms, and the test fixtures
of `camera_test.py`. -/

/-- Spec formula: f-number `N = focal_length / aperture_diameter` (SI). -/
noncomputable def specN (cam : Camera) : ℝ :=
  cam.lens.focal_length.si / cam.lens.aperture_diameter.si

/-- Spec formula: bayer circle-of-confusion diameter `c = 2.25 · pitch` (SI). -/
noncomputable def specC (cam : Camera) : ℝ := 2.25 * cam.sensor.pixel_pitch.si

/-- Spec formula for the near depth-of-field limit:
`near = (s · f²) / (f² + N·c·s)`. -/
noncomputable def specNear (cam : Camera) (s : ℝ) : ℝ :=
  s * cam.lens.focal_length.si ^ 2 /
    (cam.lens.focal_length.si ^ 2 + specN cam * specC cam * s)

/-- Spec formula for the finite far depth-of-field limit:
`far = (s · f²) / (f² − N·c·s)`. -/
noncomputable def specFar (cam : Camera) (s : ℝ) : ℝ :=
  s * cam.lens.focal_length.si ^ 2 /
    (cam.lens.focal_length.si ^ 2 - specN cam * specC cam * s)

/-- Spec formula for the hyperfocal distance: `H = f² / (N·c) + f`. -/
noncomputable def specH (cam : Camera) : ℝ :=
  cam.lens.focal_length.si ^ 2 / (specN cam * specC cam) +
    cam.lens.focal_length.si

/-- The rectilinear angle of view as a function of the SI focal-plane
length: `2 · arctan (x / (2·f))` (the spec's formula at SI values). -/
noncomputable def rectAngleSi (l : Lens) (x : ℝ) : ℝ :=
  2 * Real.arctan (x / (2 * l.focal_length.si))

/-- A well-formed camera: bayer cfa and positive magnitudes and unit scale
factors for focal length, aperture diameter and pixel pitch. -/
structure Camera.Valid (cam : Camera) : Prop where
  cfa : cam.sensor.cfa = "bayer"
  fm : 0 < cam.lens.focal_length.mag
  fu : 0 < cam.lens.focal_length.u
  am : 0 < cam.lens.aperture_diameter.mag
  au : 0 < cam.lens.aperture_diameter.u
  pm : 0 < cam.sensor.pixel_pitch.mag
  pu : 0 < cam.sensor.pixel_pitch.u

/-- The local `f_number * coc_diameter * focus_distance` product of
`GetDepthOfField` (bayer coc inlined). -/
noncomputable def dofProd (cam : Camera) (s : Qty) : Qty :=
  ((cam.lens.f_number).mul (Qty.smul 2.25 cam.sensor.pixel_pitch)).mul s

/-- The local `near` of `GetDepthOfField` (bayer coc inlined). -/
noncomputable def dofNearQ (cam : Camera) (s : Qty) : Qty :=
  (s.mul (cam.lens.focal_length.mul cam.lens.focal_length)).div
    ((cam.lens.focal_length.mul cam.lens.focal_length).add (dofProd cam s))

/-- The finite `far` of `GetDepthOfField` (bayer coc inlined). -/
noncomputable def dofFarQ (cam : Camera) (s : Qty) : Qty :=
  (s.mul (cam.lens.focal_length.mul cam.lens.focal_length)).div
    ((cam.lens.focal_length.mul cam.lens.focal_length).sub (dofProd cam s))

/-- The test sensor of `camera_test.py`: 5 µm pitch, 4000 × 3000 pixels,
bayer. -/
noncomputable def testSensor : Sensor :=
  ⟨"s", ⟨5, micron⟩, 4000, 3000, "bayer"⟩

/-- The test lens: 10 mm focal length, f/2 (5 mm aperture), rectilinear. -/
noncomputable def testLens : Lens :=
  ⟨"l", ⟨10, mm⟩, ⟨5, mm⟩, "rectilinear"⟩

/-- The equidistant test lens. -/
noncomputable def testLensEq : Lens := ⟨"l", ⟨10, mm⟩, ⟨5, mm⟩, "equidistant"⟩

/-- The test camera. -/
noncomputable def testCam : Camera := ⟨"c", testSensor, testLens⟩

/-- The equidistant twin of the test camera. -/
noncomputable def testCamEq : Camera := ⟨"c", testSensor, testLensEq⟩

/-! ### SI-value algebra for quantities -/

theorem Qty.si_mul (a b : Qty) : (a.mul b).si = a.si * b.si := by
  simp only [Qty.si, Qty.mul]; ring

theorem Qty.si_div (a b : Qty) : (a.div b).si = a.si / b.si := by
  simp only [Qty.si, Qty.div]
  rw [div_mul_div_comm]

theorem Qty.si_smul (r : ℝ) (a : Qty) : (Qty.smul r a).si = r * a.si := by
  simp only [Qty.si, Qty.smul]; ring

theorem Qty.si_add (a b : Qty) (h : a.u ≠ 0) : (a.add b).si = a.si + b.si := by
  simp only [Qty.si, Qty.add]
  field_simp

theorem Qty.si_sub (a b : Qty) (h : a.u ≠ 0) : (a.sub b).si = a.si - b.si := by
  simp only [Qty.si, Qty.sub]
  field_simp

theorem Qty.si_rescale (a : Qty) (u2 : ℝ) (h : u2 ≠ 0) :
    (a.rescale u2).si = a.si := by
  simp only [Qty.si, Qty.rescale]
  field_simp

theorem Qty.sub_mag_pos_iff (a b : Qty) (h : 0 < a.u) :
    0 < (a.sub b).mag ↔ b.si < a.si := by
  simp only [Qty.sub, Qty.si]
  rw [sub_pos, div_lt_iff₀ h]

/-- For positive x, `atan2 y x = arctan (y / x)`. -/
theorem atan2_of_pos (y x : ℝ) (hx : 0 < x) : atan2 y x = Real.arctan (y / x) := by
  simp only [atan2, if_pos hx]

/-! ### Spec-side formulas and validity -/

theorem Camera.Valid.fsi {cam : Camera} (v : cam.Valid) :
    0 < cam.lens.focal_length.si := mul_pos v.fm v.fu

theorem Camera.Valid.asi {cam : Camera} (v : cam.Valid) :
    0 < cam.lens.aperture_diameter.si := mul_pos v.am v.au

theorem Camera.Valid.psi {cam : Camera} (v : cam.Valid) :
    0 < cam.sensor.pixel_pitch.si := mul_pos v.pm v.pu

theorem Camera.Valid.Npos {cam : Camera} (v : cam.Valid) : 0 < specN cam :=
  div_pos v.fsi v.asi

theorem Camera.Valid.Cpos {cam : Camera} (v : cam.Valid) : 0 < specC cam := by
  have := v.psi
  unfold specC
  linarith

/-- The bayer branch of `circle_of_confusion_diameter`. -/
theorem coc_bayer (s : Sensor) (h : s.cfa = "bayer") :
    s.circle_of_confusion_diameter = .ok (Qty.smul 2.25 s.pixel_pitch) := by
  simp [Sensor.circle_of_confusion_diameter, h]

theorem dofProd_si (cam : Camera) (s : Qty) :
    (dofProd cam s).si = specN cam * specC cam * s.si := by
  rw [dofProd, Qty.si_mul, Qty.si_mul, Qty.si_smul, Lens.f_number, Qty.si_div]
  rfl

theorem dofNearQ_si (cam : Camera) (s : Qty)
    (hu : cam.lens.focal_length.u ≠ 0) :
    (dofNearQ cam s).si = specNear cam s.si := by
  have hflu : (cam.lens.focal_length.mul cam.lens.focal_length).u ≠ 0 := by
    simpa [Qty.mul] using mul_ne_zero hu hu
  rw [dofNearQ, Qty.si_div, Qty.si_mul, Qty.si_add _ _ hflu, dofProd_si,
    Qty.si_mul, specNear, sq]

theorem dofFarQ_si (cam : Camera) (s : Qty)
    (hu : cam.lens.focal_length.u ≠ 0) :
    (dofFarQ cam s).si = specFar cam s.si := by
  have hflu : (cam.lens.focal_length.mul cam.lens.focal_length).u ≠ 0 := by
    simpa [Qty.mul] using mul_ne_zero hu hu
  rw [dofFarQ, Qty.si_div, Qty.si_mul, Qty.si_sub _ _ hflu, dofProd_si,
    Qty.si_mul, specFar, sq]

/-- Characterization of `GetDepthOfField` on a valid camera focused beyond
the focal length: it succeeds, the near limit realises the spec's near
formula, and the far limit is the spec's far formula when
`N·c·s < f²` and the tagged infinity otherwise. -/
theorem dof_char (cam : Camera) (s : Qty) (v : cam.Valid)
    (hs : cam.lens.focal_length.si < s.si) :
    (specN cam * specC cam * s.si < cam.lens.focal_length.si ^ 2 →
      cam.GetDepthOfField s = .ok (dofNearQ cam s, .fin (dofFarQ cam s))) ∧
    (cam.lens.focal_length.si ^ 2 ≤ specN cam * specC cam * s.si →
      cam.GetDepthOfField s = .ok (dofNearQ cam s, .inf meter)) := by
  have hcoc := coc_bayer cam.sensor v.cfa
  have hflu : (0:ℝ) < (cam.lens.focal_length.mul cam.lens.focal_length).u := by
    simpa [Qty.mul] using mul_pos v.fu v.fu
  have hflsq : (cam.lens.focal_length.mul cam.lens.focal_length).si =
      cam.lens.focal_length.si ^ 2 := by
    rw [Qty.si_mul, sq]
  have hbranch :
      0 < ((cam.lens.focal_length.mul cam.lens.focal_length).sub
        (dofProd cam s)).mag ↔
      specN cam * specC cam * s.si < cam.lens.focal_length.si ^ 2 := by
    rw [Qty.sub_mag_pos_iff _ _ hflu, dofProd_si, hflsq]
  constructor
  · intro hb
    simp only [Camera.GetDepthOfField, hcoc, hs, if_true, dofNearQ, dofFarQ,
      dofProd]
    rw [if_pos]
    exact hbranch.mpr hb
  · intro hb
    simp only [Camera.GetDepthOfField, hcoc, hs, if_true, dofNearQ, dofProd]
    rw [if_neg]
    intro h
    exact absurd (hbranch.mp h) (not_lt.mpr hb)

/-- Characterization of `GetHyperfocalDistance` on a valid camera: it
succeeds with a meter-scaled quantity whose SI value is the spec's
hyperfocal formula. -/
theorem hyperfocal_char (cam : Camera) (v : cam.Valid) :
    ∃ H, cam.GetHyperfocalDistance = .ok H ∧ H.u = meter ∧
      H.si = specH cam := by
  have hcoc := coc_bayer cam.sensor v.cfa
  have hdu : ((cam.lens.focal_length.mul cam.lens.focal_length).div
      ((cam.lens.f_number).mul (Qty.smul 2.25 cam.sensor.pixel_pitch))).u ≠
      0 := by
    have : (0:ℝ) < (cam.lens.focal_length.u * cam.lens.focal_length.u) /
        ((cam.lens.focal_length.u / cam.lens.aperture_diameter.u) *
          cam.sensor.pixel_pitch.u) := by
      apply div_pos (mul_pos v.fu v.fu)
      exact mul_pos (div_pos v.fu v.au) v.pu
    simpa [Qty.div, Qty.mul, Qty.smul, Lens.f_number] using ne_of_gt this
  refine ⟨(((cam.lens.focal_length.mul cam.lens.focal_length).div
      ((cam.lens.f_number).mul (Qty.smul 2.25 cam.sensor.pixel_pitch))).add
      cam.lens.focal_length).rescale meter, ?_, rfl, ?_⟩
  · simp only [Camera.GetHyperfocalDistance, hcoc]
  · rw [Qty.si_rescale _ _ (by simp [meter]), Qty.si_add _ _ hdu, Qty.si_div,
      Qty.si_mul, Qty.si_mul, Qty.si_smul, Lens.f_number, Qty.si_div, specH,
      sq, specN, specC]

theorem testCam_valid : testCam.Valid := by
  constructor <;> norm_num [testCam, testSensor, testLens, mm, micron]

/-! ### Inequalities between the spec formulas -/

theorem specNear_denom_pos (cam : Camera) (s : ℝ) (v : cam.Valid)
    (hs : 0 < s) :
    0 < cam.lens.focal_length.si ^ 2 + specN cam * specC cam * s :=
  add_pos (pow_pos v.fsi 2) (mul_pos (mul_pos v.Npos v.Cpos) hs)

theorem specNear_pos (cam : Camera) (s : ℝ) (v : cam.Valid) (hs : 0 < s) :
    0 < specNear cam s :=
  div_pos (mul_pos hs (pow_pos v.fsi 2)) (specNear_denom_pos cam s v hs)

theorem specNear_lt_self (cam : Camera) (s : ℝ) (v : cam.Valid)
    (hs : 0 < s) : specNear cam s < s := by
  rw [specNear, div_lt_iff₀ (specNear_denom_pos cam s v hs)]
  nlinarith [mul_pos (mul_pos (mul_pos v.Npos v.Cpos) hs) hs]

theorem self_lt_specFar (cam : Camera) (s : ℝ) (v : cam.Valid) (hs : 0 < s)
    (hb : specN cam * specC cam * s < cam.lens.focal_length.si ^ 2) :
    s < specFar cam s := by
  rw [specFar, lt_div_iff₀ (by linarith)]
  nlinarith [mul_pos (mul_pos (mul_pos v.Npos v.Cpos) hs) hs]

/-- C3: on every camera with positive focal length, aperture and bayer
pixel pitch, `GetHyperfocalDistance` succeeds with a meter-scaled quantity
whose SI value is `f² / (N·c) + f`. -/
theorem C3_hyperfocal_formula (cam : Camera) (v : cam.Valid) :
    ∃ H, cam.GetHyperfocalDistance = .ok H ∧ H.u = meter ∧
      H.si = cam.lens.focal_length.si ^ 2 / (specN cam * specC cam) +
        cam.lens.focal_length.si := by
  obtain ⟨H, h1, h2, h3⟩ := hyperfocal_char cam v
  exact ⟨H, h1, h2, by rw [h3, specH]⟩

/-- Witness for C3 at the camera of `camera_test.py`. -/
theorem C3_hyperfocal_formula_witness :
    testCam.Valid ∧
    (∃ H, testCam.GetHyperfocalDistance = .ok H ∧ H.u = meter ∧
      H.si = testCam.lens.focal_length.si ^ 2 /
        (specN testCam * specC testCam) + testCam.lens.focal_length.si) :=
  ⟨testCam_valid, C3_hyperfocal_formula testCam testCam_valid⟩

/-- C4: on an unrecognized cfa the `raise Error(...)` line evaluates the
unbound name `Error`, so the call fails with `NameError` (mentioning only
the name `Error`), not with an error identifying the offending cfa value;
the unknown-projection branch of `_GetAngleOfView` fails the same way. -/
theorem C4_unknown_variant_raises_nameerror :
    (Sensor.mk "s" ⟨5, micron⟩ 4000 3000 "xtrans").circle_of_confusion_diameter
      = .error (.nameError "Error") ∧
    (Lens.mk "l" ⟨10, mm⟩ ⟨5, mm⟩ "stereographic").GetAngleOfView ⟨1, mm⟩
      = .error (.nameError "Error") := by
  constructor
  · simp [Sensor.circle_of_confusion_diameter]
  · simp [Lens.GetAngleOfView]

/-- C7: calling `GetDepthOfField` with `focus_distance ≤ focal_length`
fails the `assert` (an `AssertionError`, raised before anything else is
computed) and returns no pair. -/
theorem C7_precondition_asserts (cam : Camera) (s : Qty)
    (h : s.si ≤ cam.lens.focal_length.si) :
    cam.GetDepthOfField s = .error .assertionError := by
  simp only [Camera.GetDepthOfField]
  rw [if_neg (not_lt.mpr h)]

/-- Witness for C7: focusing exactly at the focal length. -/
theorem C7_precondition_asserts_witness :
    (Qty.mk 10 mm).si ≤ testCam.lens.focal_length.si ∧
    testCam.GetDepthOfField ⟨10, mm⟩ = .error .assertionError :=
  ⟨le_refl _, C7_precondition_asserts testCam ⟨10, mm⟩ (le_refl _)⟩

/-- C8: two cameras identical except for the lens projection tag (one
rectilinear, one equidistant) agree on `GetHyperfocalDistance` and on
`GetDepthOfField` at every focus distance beyond the focal length:
neither computation reads the projection field. -/
theorem C8_projection_independence (cam1 cam2 : Camera) (s : Qty)
    (hn : cam1.name = cam2.name)
    (hsen : cam1.sensor = cam2.sensor)
    (hln : cam1.lens.name = cam2.lens.name)
    (hf : cam1.lens.focal_length = cam2.lens.focal_length)
    (ha : cam1.lens.aperture_diameter = cam2.lens.aperture_diameter)
    (hp1 : cam1.lens.projection = "rectilinear")
    (hp2 : cam2.lens.projection = "equidistant")
    (hs : cam1.lens.focal_length.si < s.si) :
    cam1.GetHyperfocalDistance = cam2.GetHyperfocalDistance ∧
    cam1.GetDepthOfField s = cam2.GetDepthOfField s := by
  constructor
  · simp only [Camera.GetHyperfocalDistance, Lens.f_number, hsen, hf, ha]
  · simp only [Camera.GetDepthOfField, Lens.f_number, hsen, hf, ha]

/-- Witness for C8 at the two cameras of `camera_test.py`, focused at 1 m. -/
theorem C8_projection_independence_witness :
    testCam.lens.focal_length.si < (Qty.mk 1 meter).si ∧
    (testCam.GetHyperfocalDistance = testCamEq.GetHyperfocalDistance ∧
      testCam.GetDepthOfField ⟨1, meter⟩ = testCamEq.GetDepthOfField ⟨1, meter⟩) := by
  have hs : testCam.lens.focal_length.si < (Qty.mk 1 meter).si := by
    norm_num [testCam, testLens, Qty.si, mm, meter]
  exact ⟨hs, C8_projection_independence testCam testCamEq ⟨1, meter⟩ rfl rfl
    rfl rfl rfl rfl rfl hs⟩

/-- C1: on every valid camera focused beyond the focal length,
`GetDepthOfField` succeeds; the near limit is `s·f² / (f² + N·c·s)`, and
the far limit is `s·f² / (f² − N·c·s)` when `f² − N·c·s > 0` and the
infinity tagged with the meter unit otherwise. -/
theorem C1_dof_formula (cam : Camera) (s : Qty) (v : cam.Valid)
    (hs : cam.lens.focal_length.si < s.si) :
    ∃ near far, cam.GetDepthOfField s = .ok (near, far) ∧
      near.si = s.si * cam.lens.focal_length.si ^ 2 /
        (cam.lens.focal_length.si ^ 2 + specN cam * specC cam * s.si) ∧
      (0 < cam.lens.focal_length.si ^ 2 - specN cam * specC cam * s.si →
        ∃ q, far = .fin q ∧ q.si = s.si * cam.lens.focal_length.si ^ 2 /
          (cam.lens.focal_length.si ^ 2 - specN cam * specC cam * s.si)) ∧
      (¬ 0 < cam.lens.focal_length.si ^ 2 - specN cam * specC cam * s.si →
        far = .inf meter) := by
  have hfu := ne_of_gt v.fu
  by_cases hb : specN cam * specC cam * s.si < cam.lens.focal_length.si ^ 2
  · refine ⟨dofNearQ cam s, .fin (dofFarQ cam s), (dof_char cam s v hs).1 hb,
      ?_, ?_, ?_⟩
    · rw [dofNearQ_si cam s hfu, specNear]
    · intro _
      exact ⟨dofFarQ cam s, rfl, by rw [dofFarQ_si cam s hfu, specFar]⟩
    · intro h
      exact absurd (sub_pos.mpr hb) h
  · refine ⟨dofNearQ cam s, .inf meter, (dof_char cam s v hs).2 (not_lt.mp hb),
      ?_, ?_, ?_⟩
    · rw [dofNearQ_si cam s hfu, specNear]
    · intro h
      exact absurd (sub_pos.mp h) hb
    · intro _
      rfl

/-- Witness for C1 at the test camera focused at 1 m. -/
theorem C1_dof_formula_witness :
    testCam.Valid ∧ testCam.lens.focal_length.si < (Qty.mk 1 meter).si ∧
    (∃ near far, testCam.GetDepthOfField ⟨1, meter⟩ = .ok (near, far) ∧
      near.si = (Qty.mk 1 meter).si * testCam.lens.focal_length.si ^ 2 /
        (testCam.lens.focal_length.si ^ 2 +
          specN testCam * specC testCam * (Qty.mk 1 meter).si) ∧
      (0 < testCam.lens.focal_length.si ^ 2 -
          specN testCam * specC testCam * (Qty.mk 1 meter).si →
        ∃ q, far = .fin q ∧
          q.si = (Qty.mk 1 meter).si * testCam.lens.focal_length.si ^ 2 /
            (testCam.lens.focal_length.si ^ 2 -
              specN testCam * specC testCam * (Qty.mk 1 meter).si)) ∧
      (¬ 0 < testCam.lens.focal_length.si ^ 2 -
          specN testCam * specC testCam * (Qty.mk 1 meter).si →
        far = .inf meter)) := by
  have hs : testCam.lens.focal_length.si < (Qty.mk 1 meter).si := by
    norm_num [testCam, testLens, Qty.si, mm, meter]
  exact ⟨testCam_valid, hs, C1_dof_formula testCam ⟨1, meter⟩ testCam_valid hs⟩

/-- The hyperfocal distance of the test camera, computed exactly:
`4009/900 m ≈ 4.4544 m`. -/
theorem testCam_hyperfocal_eq :
    testCam.GetHyperfocalDistance = .ok ⟨4009 / 900, meter⟩ := by
  norm_num [Camera.GetHyperfocalDistance, testCam, testSensor, testLens,
    Lens.f_number, Sensor.circle_of_confusion_diameter, Qty.mul, Qty.div,
    Qty.add, Qty.smul, Qty.rescale, mm, micron, meter, Qty.mk.injEq]

/-- Counterexample to C2: on the test camera the hyperfocal distance is
`4009/900 m ≈ 4.4544 m`, the focus distance `89/20 m = 4.45 m` is strictly
below it, and yet `GetDepthOfField` returns the infinite far limit: the
far denominator `f² − N·c·s` is already nonpositive for every
`s ≥ f²/(N·c) = H − f`. -/
theorem C2_below_hyperfocal_cex :
    testCam.GetHyperfocalDistance = .ok ⟨4009 / 900, meter⟩ ∧
    (Qty.mk (89 / 20) meter).si < (Qty.mk (4009 / 900) meter).si ∧
    testCam.GetDepthOfField ⟨89 / 20, meter⟩ =
      .ok (dofNearQ testCam ⟨89 / 20, meter⟩, .inf meter) := by
  refine ⟨testCam_hyperfocal_eq, by norm_num [Qty.si, meter], ?_⟩
  have hs : testCam.lens.focal_length.si < (Qty.mk (89 / 20) meter).si := by
    norm_num [testCam, testLens, Qty.si, mm, meter]
  have hb : testCam.lens.focal_length.si ^ 2 ≤
      specN testCam * specC testCam * (Qty.mk (89 / 20) meter).si := by
    norm_num [specN, specC, testCam, testSensor, testLens, Qty.si, mm, micron,
      meter]
  exact (dof_char testCam ⟨89 / 20, meter⟩ testCam_valid hs).2 hb

/-- C2 amended: when the focus distance equals the hyperfocal distance the
far limit is infinite; and for every focus distance strictly below the
hyperfocal distance MINUS THE FOCAL LENGTH (equivalently `s < f²/(N·c)`;
for `s` in `[H − f, H)` the code already returns an infinite far limit),
the returned pair satisfies `0 < near < s < far < ∞`. -/
theorem C2_amended_dof_vs_hyperfocal (cam : Camera) (s H : Qty)
    (v : cam.Valid) (hH : cam.GetHyperfocalDistance = .ok H) :
    (s.si = H.si → cam.GetDepthOfField s =
      .ok (dofNearQ cam s, .inf meter)) ∧
    (cam.lens.focal_length.si < s.si →
      s.si < H.si - cam.lens.focal_length.si →
      ∃ near q, cam.GetDepthOfField s = .ok (near, .fin q) ∧
        0 < near.si ∧ near.si < s.si ∧ s.si < q.si) := by
  have hNC : 0 < specN cam * specC cam := mul_pos v.Npos v.Cpos
  have hHsi : H.si = specH cam := by
    obtain ⟨H0, h1, _, h3⟩ := hyperfocal_char cam v
    rw [hH] at h1
    rw [Except.ok.injEq] at h1
    rw [h1, h3]
  constructor
  · intro hsH
    have hs : cam.lens.focal_length.si < s.si := by
      rw [hsH, hHsi, specH]
      have : 0 < cam.lens.focal_length.si ^ 2 / (specN cam * specC cam) :=
        div_pos (pow_pos v.fsi 2) hNC
      linarith
    have hb : cam.lens.focal_length.si ^ 2 ≤
        specN cam * specC cam * s.si := by
      rw [hsH, hHsi, specH, mul_add,
        mul_div_cancel₀ _ (ne_of_gt hNC)]
      nlinarith [v.fsi]
    exact (dof_char cam s v hs).2 hb
  · intro hs hsb
    have hs0 : 0 < s.si := lt_trans v.fsi hs
    have hb : specN cam * specC cam * s.si <
        cam.lens.focal_length.si ^ 2 := by
      rw [hHsi, specH] at hsb
      have : s.si < cam.lens.focal_length.si ^ 2 /
          (specN cam * specC cam) := by linarith
      calc specN cam * specC cam * s.si = s.si * (specN cam * specC cam) := by
            ring
        _ < cam.lens.focal_length.si ^ 2 :=
            (lt_div_iff₀ hNC).mp this
    refine ⟨dofNearQ cam s, dofFarQ cam s, (dof_char cam s v hs).1 hb, ?_,
      ?_, ?_⟩
    · rw [dofNearQ_si cam s (ne_of_gt v.fu)]
      exact specNear_pos cam s.si v hs0
    · rw [dofNearQ_si cam s (ne_of_gt v.fu)]
      exact specNear_lt_self cam s.si v hs0
    · rw [dofFarQ_si cam s (ne_of_gt v.fu)]
      exact self_lt_specFar cam s.si v hs0 hb

/-- Witness for the amended C2 at the test camera. -/
theorem C2_amended_dof_vs_hyperfocal_witness :
    testCam.Valid ∧
    testCam.GetHyperfocalDistance = .ok ⟨4009 / 900, meter⟩ ∧
    (((Qty.mk 1 meter).si = (Qty.mk (4009 / 900) meter).si →
      testCam.GetDepthOfField ⟨1, meter⟩ =
        .ok (dofNearQ testCam ⟨1, meter⟩, .inf meter)) ∧
    (testCam.lens.focal_length.si < (Qty.mk 1 meter).si →
      (Qty.mk 1 meter).si < (Qty.mk (4009 / 900) meter).si -
        testCam.lens.focal_length.si →
      ∃ near q, testCam.GetDepthOfField ⟨1, meter⟩ = .ok (near, .fin q) ∧
        0 < near.si ∧ near.si < (Qty.mk 1 meter).si ∧
        (Qty.mk 1 meter).si < q.si)) :=
  ⟨testCam_valid, testCam_hyperfocal_eq,
    C2_amended_dof_vs_hyperfocal testCam ⟨1, meter⟩ ⟨4009 / 900, meter⟩
      testCam_valid testCam_hyperfocal_eq⟩

/-- C10: on every valid camera and focus distance beyond the focal length
— including at and beyond the hyperfocal distance — `GetDepthOfField`
succeeds; the near denominator `f² + N·c·s` is strictly positive, and the
(always finite) near limit satisfies `0 < near < s` and `near < far` in
both the finite-far and infinite-far branches. -/
theorem C10_near_limit_bounds (cam : Camera) (s : Qty) (v : cam.Valid)
    (hs : cam.lens.focal_length.si < s.si) :
    ∃ near far, cam.GetDepthOfField s = .ok (near, far) ∧
      0 < cam.lens.focal_length.si ^ 2 + specN cam * specC cam * s.si ∧
      0 < near.si ∧ near.si < s.si ∧ far.gtSi near.si := by
  have hs0 : 0 < s.si := lt_trans v.fsi hs
  have hfu := ne_of_gt v.fu
  have hden := specNear_denom_pos cam s.si v hs0
  by_cases hb : specN cam * specC cam * s.si < cam.lens.focal_length.si ^ 2
  · refine ⟨dofNearQ cam s, .fin (dofFarQ cam s), (dof_char cam s v hs).1 hb,
      hden, ?_, ?_, ?_⟩
    · rw [dofNearQ_si cam s hfu]
      exact specNear_pos cam s.si v hs0
    · rw [dofNearQ_si cam s hfu]
      exact specNear_lt_self cam s.si v hs0
    · show (dofNearQ cam s).si < (dofFarQ cam s).si
      rw [dofNearQ_si cam s hfu, dofFarQ_si cam s hfu]
      exact lt_trans (specNear_lt_self cam s.si v hs0)
        (self_lt_specFar cam s.si v hs0 hb)
  · refine ⟨dofNearQ cam s, .inf meter, (dof_char cam s v hs).2 (not_lt.mp hb),
      hden, ?_, ?_, trivial⟩
    · rw [dofNearQ_si cam s hfu]
      exact specNear_pos cam s.si v hs0
    · rw [dofNearQ_si cam s hfu]
      exact specNear_lt_self cam s.si v hs0

/-- Witness for C10 at the test camera focused at 10 m (beyond its
hyperfocal distance of about 4.45 m, so in the infinite-far branch). -/
theorem C10_near_limit_bounds_witness :
    testCam.Valid ∧ testCam.lens.focal_length.si < (Qty.mk 10 meter).si ∧
    (∃ near far, testCam.GetDepthOfField ⟨10, meter⟩ = .ok (near, far) ∧
      0 < testCam.lens.focal_length.si ^ 2 +
        specN testCam * specC testCam * (Qty.mk 10 meter).si ∧
      0 < near.si ∧ near.si < (Qty.mk 10 meter).si ∧ far.gtSi near.si) := by
  have hs : testCam.lens.focal_length.si < (Qty.mk 10 meter).si := by
    norm_num [testCam, testLens, Qty.si, mm, meter]
  exact ⟨testCam_valid, hs,
    C10_near_limit_bounds testCam ⟨10, meter⟩ testCam_valid hs⟩

/-! ### Angle of view and 35 mm equivalence -/

/-- C5: on a rectilinear lens with positive focal length the angle of view
is `2 · atan2(L, 2·f)` with `f` converted to `L`'s unit, an angle in
radians whose SI value is `2 · arctan(L / (2f))`; it is strictly
increasing in the focal-plane length, strictly below `π` for every
positive length, and tends to `π` as the length grows unboundedly. -/
theorem C5_rectilinear_angle_of_view (l : Lens)
    (hp : l.projection = "rectilinear")
    (hfm : 0 < l.focal_length.mag) (hfu : 0 < l.focal_length.u) :
    (∀ L : Qty, l.GetAngleOfView L =
      .ok ⟨2 * atan2 L.mag (2 * (l.focal_length.rescale L.u).mag), radian⟩) ∧
    (∀ L : Qty, 0 < L.u → ∃ a, l.GetAngleOfView L = .ok a ∧ a.u = radian ∧
      a.si = rectAngleSi l L.si) ∧
    (∀ x y : ℝ, 0 < x → x < y → rectAngleSi l x < rectAngleSi l y) ∧
    (∀ x : ℝ, 0 < x → rectAngleSi l x < π) ∧
    Filter.Tendsto (rectAngleSi l) Filter.atTop (nhds π) := by
  have hfsi : 0 < l.focal_length.si := mul_pos hfm hfu
  have hform : ∀ L : Qty, l.GetAngleOfView L =
      .ok ⟨2 * atan2 L.mag (2 * (l.focal_length.rescale L.u).mag), radian⟩ := by
    intro L
    simp [Lens.GetAngleOfView, hp]
  refine ⟨hform, ?_, ?_, ?_, ?_⟩
  · intro L hLu
    have hLu0 : L.u ≠ 0 := ne_of_gt hLu
    have hff : l.focal_length.mag * l.focal_length.u ≠ 0 :=
      ne_of_gt (mul_pos hfm hfu)
    have hx : 0 < 2 * (l.focal_length.rescale L.u).mag := by
      have : 0 < l.focal_length.mag * l.focal_length.u / L.u :=
        div_pos (mul_pos hfm hfu) hLu
      simpa [Qty.rescale] using this
    refine ⟨_, hform L, rfl, ?_⟩
    have harg : L.mag / (2 * (l.focal_length.rescale L.u).mag) =
        L.si / (2 * l.focal_length.si) := by
      simp only [Qty.rescale, Qty.si]
      field_simp
    show (2 * atan2 L.mag (2 * (l.focal_length.rescale L.u).mag)) * radian =
      rectAngleSi l L.si
    rw [atan2_of_pos _ _ hx, harg, rectAngleSi]
    simp [radian]
  · intro x y hx hxy
    have h2f : 0 < 2 * l.focal_length.si := by linarith
    unfold rectAngleSi
    have := Real.arctan_strictMono ((div_lt_div_iff_of_pos_right h2f).mpr hxy)
    linarith
  · intro x hx
    unfold rectAngleSi
    have := Real.arctan_lt_pi_div_two (x / (2 * l.focal_length.si))
    linarith
  · have h2f : 0 < 2 * l.focal_length.si := by linarith
    have h1 : Filter.Tendsto (fun x : ℝ => x / (2 * l.focal_length.si))
        Filter.atTop Filter.atTop :=
      Filter.tendsto_id.atTop_div_const h2f
    have h2 := (Real.tendsto_arctan_atTop.mono_right
      nhdsWithin_le_nhds).comp h1
    have h3 := h2.const_mul (2 : ℝ)
    have : (2 : ℝ) * (π / 2) = π := by ring
    rw [this] at h3
    exact h3

/-- C6: on an equidistant lens with positive focal length the angle of
view is the length ratio `L / f` in radians (an exact SI ratio), and it is
exactly linear: doubling the focal-plane length doubles the angle. -/
theorem C6_equidistant_angle_linear (l : Lens)
    (hp : l.projection = "equidistant")
    (hfm : 0 < l.focal_length.mag) (hfu : 0 < l.focal_length.u) :
    ∀ L : Qty, ∃ a, l.GetAngleOfView L = .ok a ∧ a.u = radian ∧
      a.si = L.si / l.focal_length.si ∧
      ∀ L2 : Qty, L2.u = L.u → L2.mag = 2 * L.mag →
        ∃ a2, l.GetAngleOfView L2 = .ok a2 ∧ a2.si = 2 * a.si := by
  intro L
  have heq : ∀ M : Qty, l.GetAngleOfView M =
      .ok ⟨(M.div l.focal_length).si, radian⟩ := by
    intro M
    simp [Lens.GetAngleOfView, hp]
  refine ⟨_, heq L, rfl, ?_, ?_⟩
  · show (L.div l.focal_length).si * radian = L.si / l.focal_length.si
    rw [Qty.si_div]
    simp [radian]
  · intro L2 hu hmag
    refine ⟨_, heq L2, ?_⟩
    show (L2.div l.focal_length).si * radian =
      2 * ((L.div l.focal_length).si * radian)
    rw [Qty.si_div, Qty.si_div]
    simp only [radian, mul_one, Qty.si, hu, hmag]
    ring

/-- Witness for C5 at the test lens, 10 mm rectilinear. -/
theorem C5_rectilinear_angle_of_view_witness :
    testLens.projection = "rectilinear" ∧ 0 < testLens.focal_length.mag ∧
    0 < testLens.focal_length.u ∧
    ((∀ L : Qty, testLens.GetAngleOfView L =
      .ok ⟨2 * atan2 L.mag
        (2 * (testLens.focal_length.rescale L.u).mag), radian⟩) ∧
    (∀ L : Qty, 0 < L.u → ∃ a, testLens.GetAngleOfView L = .ok a ∧
      a.u = radian ∧ a.si = rectAngleSi testLens L.si) ∧
    (∀ x y : ℝ, 0 < x → x < y →
      rectAngleSi testLens x < rectAngleSi testLens y) ∧
    (∀ x : ℝ, 0 < x → rectAngleSi testLens x < π) ∧
    Filter.Tendsto (rectAngleSi testLens) Filter.atTop (nhds π)) := by
  have h1 : (0:ℝ) < testLens.focal_length.mag := by
    norm_num [testLens]
  have h2 : (0:ℝ) < testLens.focal_length.u := by
    norm_num [testLens, mm]
  exact ⟨rfl, h1, h2, C5_rectilinear_angle_of_view testLens rfl h1 h2⟩

/-- Witness for C6 at the equidistant test lens. -/
theorem C6_equidistant_angle_linear_witness :
    testLensEq.projection = "equidistant" ∧ 0 < testLensEq.focal_length.mag ∧
    0 < testLensEq.focal_length.u ∧
    (∀ L : Qty, ∃ a, testLensEq.GetAngleOfView L = .ok a ∧ a.u = radian ∧
      a.si = L.si / testLensEq.focal_length.si ∧
      ∀ L2 : Qty, L2.u = L.u → L2.mag = 2 * L.mag →
        ∃ a2, testLensEq.GetAngleOfView L2 = .ok a2 ∧ a2.si = 2 * a.si) := by
  have h1 : (0:ℝ) < testLensEq.focal_length.mag := by
    norm_num [testLensEq]
  have h2 : (0:ℝ) < testLensEq.focal_length.u := by
    norm_num [testLensEq, mm]
  exact ⟨rfl, h1, h2, C6_equidistant_angle_linear testLensEq rfl h1 h2⟩

theorem sensor_diagonal_si (sen : Sensor) (hpm : 0 ≤ sen.pixel_pitch.mag)
    (hpu : 0 < sen.pixel_pitch.u) :
    sen.sensor_diagonal.si =
      Real.sqrt ((sen.pixel_pitch.si * sen.width_pixels) ^ 2 +
        (sen.pixel_pitch.si * sen.height_pixels) ^ 2) := by
  have hu : sen.pixel_pitch.u ≠ 0 := ne_of_gt hpu
  have harg : (sen.pixel_pitch.si * sen.width_pixels) ^ 2 +
      (sen.pixel_pitch.si * sen.height_pixels) ^ 2 =
      sen.pixel_pitch.u ^ 2 *
        (((sen.height_pixels : ℝ) * sen.pixel_pitch.mag) ^ 2 +
          ((sen.width_pixels : ℝ) * sen.pixel_pitch.mag) ^ 2) := by
    rw [Qty.si]
    ring
  rw [harg, Real.sqrt_mul (sq_nonneg _), Real.sqrt_sq hpu.le]
  simp only [Sensor.sensor_diagonal, Qty.hypot, Sensor.sensor_height,
    Sensor.sensor_width, Qty.rescale, Qty.smul, Qty.si]
  rw [mul_div_assoc, div_self hu, mul_one, mul_comm]

/-- The SI value of the 35 mm-equivalent focal length, unconditionally:
`(43.27 mm / sensor_diagonal) · focal_length`. -/
theorem get35_si (cam : Camera) :
    cam.Get35mmEquivalentFocalLength.si =
      43.27 * mm / cam.sensor.sensor_diagonal.si *
        cam.lens.focal_length.si := by
  simp only [Camera.Get35mmEquivalentFocalLength]
  rw [Qty.si_rescale _ _ (by norm_num [mm]), Qty.si_mul, Qty.si_div]
  rfl

/-- C9: on a camera with positive sensor dimensions,
`Get35mmEquivalentFocalLength` is millimeter-scaled with SI value
`(43.27 mm / sensor_diagonal) · focal_length`, where the sensor diagonal
is `hypot(pitch·width, pitch·height)`; halving the sensor diagonal with
the lens held fixed doubles the result. -/
theorem C9_equiv_focal_length (cam : Camera)
    (hpm : 0 < cam.sensor.pixel_pitch.mag)
    (hpu : 0 < cam.sensor.pixel_pitch.u)
    (hw : 0 < cam.sensor.width_pixels) (hh : 0 < cam.sensor.height_pixels)
    (hfm : 0 < cam.lens.focal_length.mag)
    (hfu : 0 < cam.lens.focal_length.u) :
    cam.sensor.sensor_diagonal.si =
      Real.sqrt ((cam.sensor.pixel_pitch.si * cam.sensor.width_pixels) ^ 2 +
        (cam.sensor.pixel_pitch.si * cam.sensor.height_pixels) ^ 2) ∧
    cam.Get35mmEquivalentFocalLength.u = mm ∧
    cam.Get35mmEquivalentFocalLength.si =
      43.27 * mm / cam.sensor.sensor_diagonal.si *
        cam.lens.focal_length.si ∧
    ∀ cam2 : Camera, cam2.lens = cam.lens →
      cam2.sensor.sensor_diagonal.si = cam.sensor.sensor_diagonal.si / 2 →
      cam2.Get35mmEquivalentFocalLength.si =
        2 * cam.Get35mmEquivalentFocalLength.si := by
  have hd : 0 < cam.sensor.sensor_diagonal.si := by
    rw [sensor_diagonal_si cam.sensor hpm.le hpu]
    apply Real.sqrt_pos.mpr
    have h1 : 0 < cam.sensor.pixel_pitch.si * cam.sensor.width_pixels :=
      mul_pos (mul_pos hpm hpu) (by exact_mod_cast hw)
    nlinarith [sq_nonneg (cam.sensor.pixel_pitch.si * cam.sensor.height_pixels)]
  refine ⟨sensor_diagonal_si cam.sensor hpm.le hpu, rfl, get35_si cam, ?_⟩
  intro cam2 hlens hdiag
  rw [get35_si, get35_si, hlens, hdiag]
  have hmm : (0:ℝ) < mm := by norm_num [mm]
  field_simp
  ring

/-- Witness for C9 at the test camera. -/
theorem C9_equiv_focal_length_witness :
    0 < testCam.sensor.pixel_pitch.mag ∧ 0 < testCam.sensor.pixel_pitch.u ∧
    0 < testCam.sensor.width_pixels ∧ 0 < testCam.sensor.height_pixels ∧
    0 < testCam.lens.focal_length.mag ∧ 0 < testCam.lens.focal_length.u ∧
    (testCam.sensor.sensor_diagonal.si =
      Real.sqrt ((testCam.sensor.pixel_pitch.si *
          testCam.sensor.width_pixels) ^ 2 +
        (testCam.sensor.pixel_pitch.si *
          testCam.sensor.height_pixels) ^ 2) ∧
    testCam.Get35mmEquivalentFocalLength.u = mm ∧
    testCam.Get35mmEquivalentFocalLength.si =
      43.27 * mm / testCam.sensor.sensor_diagonal.si *
        testCam.lens.focal_length.si ∧
    ∀ cam2 : Camera, cam2.lens = testCam.lens →
      cam2.sensor.sensor_diagonal.si =
        testCam.sensor.sensor_diagonal.si / 2 →
      cam2.Get35mmEquivalentFocalLength.si =
        2 * testCam.Get35mmEquivalentFocalLength.si) := by
  have h1 : (0:ℝ) < testCam.sensor.pixel_pitch.mag := by
    norm_num [testCam, testSensor]
  have h2 : (0:ℝ) < testCam.sensor.pixel_pitch.u := by
    norm_num [testCam, testSensor, micron]
  have h3 : 0 < testCam.sensor.width_pixels := by
    norm_num [testCam, testSensor]
  have h4 : 0 < testCam.sensor.height_pixels := by
    norm_num [testCam, testSensor]
  have h5 : (0:ℝ) < testCam.lens.focal_length.mag := by
    norm_num [testCam, testLens]
  have h6 : (0:ℝ) < testCam.lens.focal_length.u := by
    norm_num [testCam, testLens, mm]
  exact ⟨h1, h2, h3, h4, h5, h6,
    C9_equiv_focal_length testCam h1 h2 h3 h4 h5 h6⟩

end Pinhole
